import Mathlib

/-!
Shallow embedding of the dcc-rs crate: the DCC packet codec
(src/packets.rs, src/packets/mod.rs, src/packets/service_mode.rs) and the
interrupt-driven transmission engine (src/lib.rs), together with theorems
settling the specification claims about them.

Machine integers (u8/u16/u32/usize) are modelled as Nat; the only place the
source can wrap is the speed bias addition, modelled with an explicit % 256.
Bit buffers are modelled as total functions Nat → Bool for the serialise
buffer (writes are explicit point updates) and as List Bool for the engine
buffers (so the out-of-range unwrap in tick() is observable as none).
-/

namespace Dcc

/-- Error enum from src/lib.rs, extended with the variants referenced by
src/packets/service_mode.rs (InvalidOffset, MissingField). -/
inductive Error where
  | TooLong
  | InvalidAddress
  | InvalidSpeed
  | InvalidOffset
  | MissingField
  deriving DecidableEq, Repr

/-- MAX_BITS constant from src/packets/mod.rs: nominal capacity of a
SerialiseBuffer. -/
def MAX_BITS : Nat := 43

/-- The bits of one byte in Msb0 order, as produced by
[byte].view_bits::<Msb0>() in bitvec: index 0 is the most significant bit. -/
def byteBits (byte : Nat) : List Bool :=
  [byte.testBit 7, byte.testBit 6, byte.testBit 5, byte.testBit 4,
   byte.testBit 3, byte.testBit 2, byte.testBit 1, byte.testBit 0]

/-- A SerialiseBuffer modelled as a total bit map; buf.set(i, b). -/
def setBit (buf : Nat → Bool) (i : Nat) (b : Bool) : Nat → Bool :=
  fun j => if j = i then b else buf j

/-- buf[pos..pos+bits.length].copy_from_bitslice(bits): write a run of bits
starting at pos. -/
def writeBits (buf : Nat → Bool) (pos : Nat) : List Bool → (Nat → Bool)
  | [] => buf
  | b :: rest => writeBits (setBit buf pos b) (pos + 1) rest

/-- The per-byte loop of the generic frame assembler in src/packets/mod.rs:
for each byte write a 0 start bit then the byte Msb0; returns the updated
buffer and the position after the last written bit. -/
def serialiseLoop : List Nat → (Nat → Bool) → Nat → ((Nat → Bool) × Nat)
  | [], buf, pos => (buf, pos)
  | byte :: rest, buf, pos =>
      let buf := setBit buf pos false
      let pos := pos + 1
      let buf := writeBits buf pos (byteBits byte)
      serialiseLoop rest buf (pos + 8)

/-- The generic frame assembler fn serialise(data, buf) from
src/packets/mod.rs. Returns the (possibly updated) buffer together with
Ok(number of bits written) or Err(TooLong). On TooLong the buffer is
returned untouched, as in the source, which returns before any write. -/
def serialise (data : List Nat) (buf : Nat → Bool) :
    ((Nat → Bool) × Except Error Nat) :=
  let required_bits := 15 + data.length * 9 + 1
  if required_bits > MAX_BITS then
    (buf, .error .TooLong)
  else
    let buf := writeBits buf 0 (byteBits 0xff ++ byteBits 0xfe)
    let res := serialiseLoop data buf 15
    (setBit res.1 res.2 true, .ok (res.2 + 1))

/-- XOR of a list of payload bytes. -/
def xorBytes (l : List Nat) : Nat := l.foldl (· ^^^ ·) 0

/-- Direction enum from src/packets.rs. -/
inductive Direction where
  | Forward
  | Backward
  deriving DecidableEq, Repr

/-- SpeedAndDirection packet from src/packets.rs. -/
structure SpeedAndDirection where
  address : Nat
  instruction : Nat
  ecc : Nat
  deriving DecidableEq, Repr

/-- The three data bytes SpeedAndDirection::serialise writes between the
framing bits (address at bits 16..24, instruction at 25..33, ecc at
34..42). -/
def SpeedAndDirection.payloadBytes (p : SpeedAndDirection) : List Nat :=
  [p.address, p.instruction, p.ecc]

/-- SpeedAndDirectionBuilder from src/packets.rs (#[derive(Default)]). -/
structure SpeedAndDirectionBuilder where
  address : Option Nat := none
  speed : Option Nat := none
  e_stop : Bool := false
  direction : Option Direction := none
  deriving DecidableEq, Repr

/-- SpeedAndDirectionBuilder::address (setter). -/
def SpeedAndDirectionBuilder.setAddress (b : SpeedAndDirectionBuilder)
    (address : Nat) : Except Error SpeedAndDirectionBuilder :=
  if address = 0 ∨ address > 0x7f then
    .error .InvalidAddress
  else
    .ok { b with address := some address }

/-- SpeedAndDirectionBuilder::speed (setter). -/
def SpeedAndDirectionBuilder.setSpeed (b : SpeedAndDirectionBuilder)
    (speed : Nat) : Except Error SpeedAndDirectionBuilder :=
  if speed > 28 then
    .error .InvalidSpeed
  else
    .ok { b with speed := some speed }

/-- SpeedAndDirectionBuilder::direction (setter). -/
def SpeedAndDirectionBuilder.setDirection (b : SpeedAndDirectionBuilder)
    (direction : Direction) : SpeedAndDirectionBuilder :=
  { b with direction := some direction }

/-- SpeedAndDirectionBuilder::e_stop (setter). -/
def SpeedAndDirectionBuilder.setEStop (b : SpeedAndDirectionBuilder)
    (e_stop : Bool) : SpeedAndDirectionBuilder :=
  { b with e_stop := e_stop }

/-- SpeedAndDirectionBuilder::build from src/packets.rs: infallible, with
defaults address=3, speed=0, direction=Forward. The speed bias addition is
u8 arithmetic, hence the % 256. -/
def SpeedAndDirectionBuilder.build (b : SpeedAndDirectionBuilder) :
    SpeedAndDirection :=
  let address := b.address.getD 3
  let speed :=
    match b.speed with
    | some 0 => 0
    | none => 0
    | some speed => (speed + 3) % 256
  let instruction := 0b01000000
  let instruction :=
    match b.direction.getD Direction.Forward with
    | Direction.Forward => instruction ||| 0b00100000
    | Direction.Backward => instruction
  let instruction :=
    if b.e_stop then
      instruction ||| 0x01
    else
      (instruction ||| ((speed >>> 1) &&& 0x0f)) ||| ((speed &&& 0x01) <<< 4)
  let ecc := address ^^^ instruction
  { address := address, instruction := instruction, ecc := ecc }

/-- InstructionType enum from src/packets/service_mode.rs. -/
inductive InstructionType where
  | WriteCvBit (offset : Nat) (value : Bool)
  | VerifyCvBit (offset : Nat) (value : Bool)
  | WriteCvByte (value : Nat)
  | VerifyCvByte (value : Nat)
  deriving DecidableEq, Repr

/-- Instruction service-mode packet from src/packets/service_mode.rs. -/
structure Instruction where
  typ : InstructionType
  cv_address : Nat
  deriving DecidableEq, Repr

/-- The four bytes Instruction::serialise hands to the generic frame
assembler: type-and-address byte, low address byte, data byte, checksum. -/
def Instruction.payloadBytes (p : Instruction) : List Nat :=
  let type_and_start_of_address := 0x70 ||| (p.cv_address >>> 8)
  let rest_of_address := p.cv_address &&& 0x00ff
  let (type_and_start_of_address, data) :=
    match p.typ with
    | .WriteCvBit offset value =>
        (type_and_start_of_address ||| 0b00001000,
         (0b11110000 ||| offset) ||| ((cond value 1 0) <<< 3))
    | .VerifyCvBit offset value =>
        (type_and_start_of_address ||| 0b00001000,
         (0b11100000 ||| offset) ||| ((cond value 1 0) <<< 3))
    | .WriteCvByte value =>
        (type_and_start_of_address ||| 0b00001100, value)
    | .VerifyCvByte value =>
        (type_and_start_of_address ||| 0b00000100, value)
  [type_and_start_of_address, rest_of_address, data,
   type_and_start_of_address ^^^ rest_of_address ^^^ data]

/-- Instruction::serialise: frame-assemble its four payload bytes. -/
def Instruction.serialise (p : Instruction) (buf : Nat → Bool) :
    ((Nat → Bool) × Except Error Nat) :=
  Dcc.serialise p.payloadBytes buf

/-- InstructionBuilder from src/packets/service_mode.rs. -/
structure InstructionBuilder where
  cv_address : Option Nat := none
  typ : Option InstructionType := none
  deriving DecidableEq, Repr

/-- InstructionBuilder::cv_address (setter): stores cv_address - 1. -/
def InstructionBuilder.setCvAddress (b : InstructionBuilder)
    (cv_address : Nat) : Except Error InstructionBuilder :=
  if 0 < cv_address ∧ cv_address < 0x0400 then
    .ok { b with cv_address := some (cv_address - 1) }
  else
    .error .InvalidAddress

/-- InstructionBuilder::write_byte. -/
def InstructionBuilder.write_byte (b : InstructionBuilder) (value : Nat) :
    InstructionBuilder :=
  { b with typ := some (.WriteCvByte value) }

/-- InstructionBuilder::verify_byte. -/
def InstructionBuilder.verify_byte (b : InstructionBuilder) (value : Nat) :
    InstructionBuilder :=
  { b with typ := some (.VerifyCvByte value) }

/-- InstructionBuilder::write_bit. -/
def InstructionBuilder.write_bit (b : InstructionBuilder) (offset : Nat)
    (value : Bool) : Except Error InstructionBuilder :=
  if offset < 0x08 then
    .ok { b with typ := some (.WriteCvBit offset value) }
  else
    .error .InvalidOffset

/-- InstructionBuilder::verify_bit. -/
def InstructionBuilder.verify_bit (b : InstructionBuilder) (offset : Nat)
    (value : Bool) : Except Error InstructionBuilder :=
  if offset < 0x08 then
    .ok { b with typ := some (.VerifyCvBit offset value) }
  else
    .error .InvalidOffset

/-- InstructionBuilder::build: MissingField when typ or cv_address unset. -/
def InstructionBuilder.build (b : InstructionBuilder) :
    Except Error Instruction :=
  match b.typ with
  | none => .error .MissingField
  | some typ =>
      match b.cv_address with
      | none => .error .MissingField
      | some cv_address => .ok { typ := typ, cv_address := cv_address }

/-- PagePreset packet: fixed three-byte payload. -/
def PagePreset.payloadBytes : List Nat := [0b01111101, 0b00000001, 0b01111100]

/-- AddressOnly packet from src/packets/service_mode.rs. -/
inductive AddressOnly where
  | Write (address : Nat)
  | Verify (address : Nat)
  deriving DecidableEq, Repr

/-- AddressOnly::write constructor. -/
def AddressOnly.write (address : Nat) : Except Error AddressOnly :=
  if address < 0x7f then .ok (.Write address) else .error .InvalidAddress

/-- AddressOnly::verify constructor. -/
def AddressOnly.verify (address : Nat) : Except Error AddressOnly :=
  if address < 0x7f then .ok (.Verify address) else .error .InvalidAddress

/-- The three bytes AddressOnly::serialise hands to the frame assembler. -/
def AddressOnly.payloadBytes (p : AddressOnly) : List Nat :=
  let instr := 0b01110000
  let (instr, address) :=
    match p with
    | .Write address => (instr ||| 0b00001000, address)
    | .Verify address => (instr, address)
  [instr, address, instr ^^^ address]

/-- Operation enum from src/packets/service_mode.rs. -/
inductive Operation where
  | Verify
  | Write
  deriving DecidableEq, Repr

/-- PhysicalRegister packet from src/packets/service_mode.rs. -/
structure PhysicalRegister where
  operation : Operation
  register : Nat
  value : Nat
  deriving DecidableEq, Repr

/-- The three bytes PhysicalRegister::serialise hands to the assembler. -/
def PhysicalRegister.payloadBytes (p : PhysicalRegister) : List Nat :=
  let instr := 0b01110000
  let instr := match p.operation with
    | .Write => instr ||| 0b00001000
    | .Verify => instr
  let instr := instr ||| p.register
  [instr, p.value, instr ^^^ p.value]

/-- PhysicalRegisterBuilder from src/packets/service_mode.rs. -/
structure PhysicalRegisterBuilder where
  operation : Option Operation := none
  register : Option Nat := none
  value : Option Nat := none
  deriving DecidableEq, Repr

/-- PhysicalRegisterBuilder::operation (setter). -/
def PhysicalRegisterBuilder.setOperation (b : PhysicalRegisterBuilder)
    (operation : Operation) : PhysicalRegisterBuilder :=
  { b with operation := some operation }

/-- PhysicalRegisterBuilder::register (setter): the source guard is
1 < register && register <= 8, and register - 1 is stored. -/
def PhysicalRegisterBuilder.setRegister (b : PhysicalRegisterBuilder)
    (register : Nat) : Except Error PhysicalRegisterBuilder :=
  if 1 < register ∧ register ≤ 8 then
    .ok { b with register := some (register - 1) }
  else
    .error .InvalidAddress

/-- PhysicalRegisterBuilder::value (setter). -/
def PhysicalRegisterBuilder.setValue (b : PhysicalRegisterBuilder)
    (value : Nat) : PhysicalRegisterBuilder :=
  { b with value := some value }

/-- PhysicalRegisterBuilder::build. -/
def PhysicalRegisterBuilder.build (b : PhysicalRegisterBuilder) :
    Except Error PhysicalRegister :=
  match b.operation with
  | none => .error .MissingField
  | some operation =>
      match b.register with
      | none => .error .MissingField
      | some register =>
          match b.value with
          | none => .error .MissingField
          | some value =>
              .ok { operation := operation, register := register, value := value }

/-- FactoryReset packet: fixed three-byte payload. -/
def FactoryReset.payloadBytes : List Nat := [0b01111111, 0b00001000, 0b01110111]

/-- AddressQuery packet from src/packets/service_mode.rs. -/
structure AddressQuery where
  address : Nat
  deriving DecidableEq, Repr

/-- The three bytes AddressQuery::serialise hands to the assembler. -/
def AddressQuery.payloadBytes (p : AddressQuery) : List Nat :=
  let instr := 0b11111001
  [p.address, instr, p.address ^^^ instr]

/-- DecoderLock packet from src/packets/service_mode.rs. -/
structure DecoderLock where
  address : Nat
  deriving DecidableEq, Repr

/-- The four bytes DecoderLock::serialise hands to the assembler. -/
def DecoderLock.payloadBytes (p : DecoderLock) : List Nat :=
  let instr := 0b11111001
  [0, instr, p.address, p.address ^^^ instr]

/-- DecoderLockBuilder from src/packets/service_mode.rs. -/
structure DecoderLockBuilder where
  address : Option Nat := none
  deriving DecidableEq, Repr

/-- DecoderLockBuilder::address (setter). -/
def DecoderLockBuilder.setAddress (b : DecoderLockBuilder) (address : Nat) :
    Except Error DecoderLockBuilder :=
  if address < 0x7f then
    .ok { b with address := some address }
  else
    .error .InvalidAddress

/-- DecoderLockBuilder::build. -/
def DecoderLockBuilder.build (b : DecoderLockBuilder) :
    Except Error DecoderLock :=
  match b.address with
  | none => .error .MissingField
  | some address => .ok { address := address }

/-- BUFFER_SIZE constant from src/lib.rs: 24 * 8 bits. -/
def BUFFER_SIZE : Nat := 24 * 8

/-- ZERO_MICROS constant from src/lib.rs. -/
def ZERO_MICROS : Nat := 100

/-- ONE_MICROS constant from src/lib.rs. -/
def ONE_MICROS : Nat := 58

/-- TxState enum from src/lib.rs. -/
inductive TxState where
  | Idle (second_half_of_bit : Bool)
  | Transmitting (offset : Nat) (second_half_of_bit : Bool)
  deriving DecidableEq, Repr

/-- DccInterruptHandler from src/lib.rs. The generic OutputPin is modelled
by the Bool field pin (set_high sets it true, set_low false; pin errors are
impossible for such a pin, as for the crate's test MockPin). The two bit
buffers are 192-bit (BUFFER_SIZE) arrays, modelled as lists. -/
structure DccInterruptHandler where
  write_buffer : List Bool
  write_buffer_len : Nat
  buffer : List Bool
  buffer_num_bits : Nat
  state : TxState
  pin : Bool
  deriving DecidableEq, Repr

/-- DccInterruptHandler::new: both buffers zeroed, lengths 0, Idle state. -/
def DccInterruptHandler.new (pin : Bool) : DccInterruptHandler :=
  { write_buffer := List.replicate BUFFER_SIZE false
    write_buffer_len := 0
    buffer := List.replicate BUFFER_SIZE false
    buffer_num_bits := 0
    state := .Idle false
    pin := pin }

/-- DccInterruptHandler::tick from src/lib.rs. Returns the new clock count
and the updated handler; none models the panic of
self.buffer.get(offset).unwrap() when offset is out of range of the 192-bit
buffer. -/
def DccInterruptHandler.tick (s : DccInterruptHandler) :
    Option (Nat × DccInterruptHandler) :=
  match s.state with
  | .Idle second_half_of_bit =>
      let s := { s with pin := second_half_of_bit }
      if second_half_of_bit ∧ s.write_buffer_len ≠ 0 then
        some (ZERO_MICROS,
          { s with buffer := s.write_buffer
                   buffer_num_bits := s.write_buffer_len
                   write_buffer_len := 0
                   state := .Transmitting 0 false })
      else
        some (ZERO_MICROS, { s with state := .Idle (!second_half_of_bit) })
  | .Transmitting offset second_half_of_bit =>
      match s.buffer[offset]? with
      | none => none
      | some current_bit =>
          let new_clock := if current_bit then ONE_MICROS else ZERO_MICROS
          let offset := if second_half_of_bit then offset + 1 else offset
          let s := { s with pin := second_half_of_bit }
          if offset < s.buffer_num_bits then
            some (new_clock,
              { s with state := .Transmitting offset (!second_half_of_bit) })
          else
            some (new_clock, { s with state := .Idle false })

/-- DccInterruptHandler::write from src/lib.rs: stage a packet. On TooLong
nothing is written; otherwise the first buf.len() bits of the write buffer
are overwritten and the staged length recorded. -/
def DccInterruptHandler.write (s : DccInterruptHandler) (buf : List Bool) :
    Except Error DccInterruptHandler :=
  if buf.length > BUFFER_SIZE then
    .error .TooLong
  else
    .ok { s with write_buffer := buf ++ s.write_buffer.drop buf.length
                 write_buffer_len := buf.length }

/-- The operations the host can perform on the engine: staging a packet and
one timer interrupt. -/
inductive Op where
  | write (bits : List Bool)
  | tick
  deriving Repr

/-- One host operation applied to the engine state. A failed write (TooLong)
leaves the state unchanged, as in the source; a tick that would panic is
modelled as leaving the state unchanged (the invariant proof shows this
never happens from reachable states). -/
def Op.step (s : DccInterruptHandler) : Op → DccInterruptHandler
  | .write bits =>
      match s.write bits with
      | .ok s' => s'
      | .error _ => s
  | .tick =>
      match s.tick with
      | some (_, s') => s'
      | none => s

/-- The engine state after a sequence of host operations starting from a
freshly constructed handler. -/
def run (ops : List Op) : DccInterruptHandler :=
  ops.foldl Op.step (DccInterruptHandler.new false)

/-- Iterated tick: the list of returned clock counts over n ticks, or none
if some tick panics. -/
def tickN : Nat → DccInterruptHandler → Option (List Nat × DccInterruptHandler)
  | 0, s => some ([], s)
  | n + 1, s =>
      match s.tick with
      | none => none
      | some (c, s') =>
          match tickN n s' with
          | none => none
          | some (cs, s'') => some (c :: cs, s'')

/-- The engine's structural invariant: both buffers keep their 192-bit
capacity, the staged and active lengths never exceed it, and a Transmitting
offset always lies below the active length. -/
def EngineInv (s : DccInterruptHandler) : Prop :=
  s.write_buffer.length = BUFFER_SIZE ∧
  s.buffer.length = BUFFER_SIZE ∧
  s.write_buffer_len ≤ BUFFER_SIZE ∧
  s.buffer_num_bits ≤ BUFFER_SIZE ∧
  ∀ o sh, s.state = .Transmitting o sh → o < s.buffer_num_bits

/-- The bit layout the generic frame assembler produces on success: fifteen
preamble one-bits, a 0 start bit before each data byte followed by its eight
bits MSB-first, a final 1 stop bit, and all later bits untouched. -/
def FrameLayout (data : List Nat) (buf out : Nat → Bool) : Prop :=
  (∀ i, i < 15 → out i = true) ∧
  (∀ j, j < data.length → out (15 + 9 * j) = false ∧
    ∀ k, k < 8 → out (16 + 9 * j + k) = (data.getD j 0).testBit (7 - k)) ∧
  out (15 + 9 * data.length) = true ∧
  (∀ i, 15 + 9 * data.length + 1 ≤ i → out i = buf i)

/-- XOR of three bytes followed by their running checksum is zero. -/
theorem xorBytes_three_self (a b : Nat) : xorBytes [a, b, a ^^^ b] = 0 := by
  simp [xorBytes, Nat.zero_xor, Nat.xor_self]

/-- XOR of four bytes whose last is the XOR of the first three is zero. -/
theorem xorBytes_four_self (a b c : Nat) :
    xorBytes [a, b, c, a ^^^ b ^^^ c] = 0 := by
  simp [xorBytes, Nat.zero_xor, Nat.xor_self]

/-- XOR of a zero byte, two bytes and their reversed checksum is zero. -/
theorem xorBytes_lock_self (a b : Nat) : xorBytes [0, a, b, b ^^^ a] = 0 := by
  simp [xorBytes, Nat.zero_xor, Nat.xor_self, Nat.xor_comm]

/-- C4: for every packet value produced by any codec builder or constructor
(SpeedAndDirection, Instruction, AddressOnly, PhysicalRegister,
AddressQuery, DecoderLock, PagePreset, FactoryReset), the XOR of all payload
data bytes of the serialised frame, including the trailing checksum byte and
excluding preamble/start/stop framing bits, equals zero. -/
theorem C4_checksum_xor_invariant :
    (∀ b : SpeedAndDirectionBuilder, xorBytes (b.build).payloadBytes = 0) ∧
    (∀ p : Instruction, xorBytes p.payloadBytes = 0) ∧
    (∀ p : AddressOnly, xorBytes p.payloadBytes = 0) ∧
    (∀ p : PhysicalRegister, xorBytes p.payloadBytes = 0) ∧
    (∀ p : AddressQuery, xorBytes p.payloadBytes = 0) ∧
    (∀ p : DecoderLock, xorBytes p.payloadBytes = 0) ∧
    xorBytes PagePreset.payloadBytes = 0 ∧
    xorBytes FactoryReset.payloadBytes = 0 := by
  refine ⟨fun b => ?_, fun p => ?_, fun p => ?_, fun p => ?_, fun p => ?_,
    fun p => ?_, by decide, by decide⟩
  · exact xorBytes_three_self _ _
  · obtain ⟨typ, cv⟩ := p
    cases typ <;> exact xorBytes_four_self _ _ _
  · cases p <;> exact xorBytes_three_self _ _
  · exact xorBytes_three_self _ _
  · exact xorBytes_three_self _ _
  · exact xorBytes_lock_self _ _

/-- C1: the claim states that serialising any service-mode Instruction
packet built from a valid CV address and operation succeeds on a default
SerialiseBuffer and returns 52 bits. On the code this is false: the four
payload bytes require 15 + 4*9 + 1 = 52 bits, which exceeds MAX_BITS = 43,
so Instruction::serialise always returns Err(TooLong). This theorem
evaluates the code at the repo test's own input (cv 48, WriteCvByte 0xaa)
and proves the universal failure. -/
theorem C1_instruction_serialise_always_too_long :
    (∀ (p : Instruction) (buf : Nat → Bool),
        (p.serialise buf).2 = .error .TooLong) ∧
    InstructionBuilder.setCvAddress {} 48 =
      .ok { cv_address := some 47, typ := none } ∧
    InstructionBuilder.build
        (InstructionBuilder.write_byte { cv_address := some 47, typ := none } 0xaa) =
      .ok { typ := .WriteCvByte 0xaa, cv_address := 47 } ∧
    (Instruction.serialise { typ := .WriteCvByte 0xaa, cv_address := 47 }
        (fun _ => false)).2 = .error .TooLong := by
  refine ⟨fun p buf => ?_, rfl, rfl, rfl⟩
  obtain ⟨typ, cv⟩ := p
  cases typ <;> rfl

set_option maxRecDepth 4000 in
/-- C3: the claim states that after staging bytes [0x00, 0xFF] on a fresh
engine, 34 ticks return two delays of 500 (idle) then sixteen of 100 then
sixteen of 58. On the code this is false: the Idle state returns
ZERO_MICROS = 100, not 500 (the crate's own send_a_packet test asserts 500
for the idle ticks). The actual sequence is two ticks of 100, sixteen of
100, then sixteen of 58. -/
theorem C3_actual_delay_sequence :
    (((DccInterruptHandler.new false).write
          (byteBits 0x00 ++ byteBits 0xff)).toOption.bind
        (fun s => (tickN 34 s).map Prod.fst)) =
      some (List.replicate 2 ZERO_MICROS ++
        (List.replicate 16 ZERO_MICROS ++ List.replicate 16 ONE_MICROS)) := by
  rfl

/-- C6 counterexample: the claim states that every builder, including
SpeedAndDirectionBuilder, fails with MissingField when a required field was
never supplied. On the code SpeedAndDirectionBuilder::build is infallible:
with no field set at all it returns the default packet (address 3, stop
speed, Forward), never a MissingField error. -/
theorem C6_counterexample_sd_build_cannot_fail :
    SpeedAndDirectionBuilder.build {} =
      { address := 3, instruction := 0x60, ecc := 0x63 } := by
  rfl

/-- C6 (amended): for InstructionBuilder, PhysicalRegisterBuilder and
DecoderLockBuilder, build() fails with MissingField whenever a required
field was never supplied; SpeedAndDirectionBuilder::build never fails and
substitutes the default address 3 instead. -/
theorem C6_missing_field_amended :
    (∀ b : InstructionBuilder, b.typ = none ∨ b.cv_address = none →
        b.build = .error .MissingField) ∧
    (∀ b : PhysicalRegisterBuilder,
        b.operation = none ∨ b.register = none ∨ b.value = none →
        b.build = .error .MissingField) ∧
    (∀ b : DecoderLockBuilder, b.address = none →
        b.build = .error .MissingField) ∧
    (∀ b : SpeedAndDirectionBuilder, b.address = none →
        (b.build).address = 3) := by
  refine ⟨fun b h => ?_, fun b h => ?_, fun b h => ?_, fun b h => ?_⟩
  · obtain ⟨cv, typ⟩ := b
    rcases h with h | h <;> subst h
    · rfl
    · cases typ <;> rfl
  · obtain ⟨op, reg, v⟩ := b
    rcases h with h | h | h <;> subst h
    · rfl
    · cases op <;> rfl
    · cases op <;> cases reg <;> rfl
  · obtain ⟨a⟩ := b
    subst h
    rfl
  · obtain ⟨a, sp, es, d⟩ := b
    subst h
    rfl

/-- C6 witness: the amended statement applied to empty builders. -/
theorem C6_missing_field_amended_witness :
    InstructionBuilder.build {} = .error .MissingField ∧
    PhysicalRegisterBuilder.build {} = .error .MissingField ∧
    DecoderLockBuilder.build {} = .error .MissingField ∧
    (SpeedAndDirectionBuilder.build {}).address = 3 :=
  ⟨C6_missing_field_amended.1 {} (Or.inl rfl),
   C6_missing_field_amended.2.1 {} (Or.inl rfl),
   C6_missing_field_amended.2.2.1 {} rfl,
   C6_missing_field_amended.2.2.2 {} rfl⟩

/-- C7: the claim states that PhysicalRegisterBuilder::register(r) succeeds
exactly when 1 <= r <= 8. On the code the guard is 1 < register &&
register <= 8, so register(1) is rejected with InvalidAddress even though
the method's own documentation says registers 1-8 are valid (raw addresses
0-7) and PhysicalRegister::ADDRESS is the constant 1. This theorem
evaluates the code at the failing input r = 1 and characterises the
accepted range actually implemented. -/
theorem C7_register_one_rejected :
    PhysicalRegisterBuilder.setRegister {} 1 = .error .InvalidAddress ∧
    PhysicalRegisterBuilder.setRegister {} 2 =
      .ok { operation := none, register := some 1, value := none } ∧
    (∀ (r : Nat) (b : PhysicalRegisterBuilder),
        (∃ b2, b.setRegister r = .ok b2) ↔ 1 < r ∧ r ≤ 8) := by
  refine ⟨rfl, rfl, fun r b => ?_⟩
  unfold PhysicalRegisterBuilder.setRegister
  split
  · rename_i h
    exact Iff.intro (fun _ => h) (fun _ => ⟨_, rfl⟩)
  · rename_i h
    constructor
    · rintro ⟨b2, hb⟩
      cases hb
    · intro hc
      exact absurd hc h

/-- C8: the claim states address(0) and address(127) both return
InvalidAddress, speed(29) returns InvalidSpeed, cv_address(0) and
cv_address(1024) InvalidAddress, write_bit(8, true) InvalidOffset. On the
code address(127) succeeds: the guard is address == 0 || address > 0x7f,
so 127 = 0x7f is accepted and stored, although the setter's documentation
says the address has to be between 1 and 126. The other five boundary
evaluations behave as claimed. -/
theorem C8_boundary_evaluations :
    SpeedAndDirectionBuilder.setAddress {} 0 = .error .InvalidAddress ∧
    SpeedAndDirectionBuilder.setAddress {} 127 =
      .ok { address := some 127, speed := none, e_stop := false,
            direction := none } ∧
    SpeedAndDirectionBuilder.setSpeed {} 29 = .error .InvalidSpeed ∧
    InstructionBuilder.setCvAddress {} 0 = .error .InvalidAddress ∧
    InstructionBuilder.setCvAddress {} 1024 = .error .InvalidAddress ∧
    InstructionBuilder.write_bit {} 8 true = .error .InvalidOffset := by
  exact ⟨rfl, rfl, rfl, rfl, rfl, rfl⟩

/-- C10: SpeedAndDirectionBuilder::build is infallible; with no fields set
it produces the default packet address 3, instruction 0x60 (packet type
0b010, Forward bit, speed bits 0 = stop), and when e_stop is set the five
speed bits of the instruction are the e-stop code 00001 regardless of any
speed value supplied. -/
theorem C10_sd_build_infallible_defaults :
    ((SpeedAndDirectionBuilder.build {}).address = 3 ∧
     (SpeedAndDirectionBuilder.build {}).instruction = 0x60) ∧
    (∀ b : SpeedAndDirectionBuilder, b.e_stop = true →
        (b.build).instruction &&& 0x1f = 0x01) := by
  refine ⟨⟨rfl, rfl⟩, fun b h => ?_⟩
  obtain ⟨a, sp, es, d⟩ := b
  subst h
  rcases d with _ | d
  · simp [SpeedAndDirectionBuilder.build]
    decide
  · cases d <;> simp [SpeedAndDirectionBuilder.build] <;> decide

/-- C10 witness: e-stop with a nonzero speed still encodes the e-stop
code. -/
theorem C10_sd_build_infallible_defaults_witness :
    (SpeedAndDirectionBuilder.build
        { speed := some 17, e_stop := true }).instruction &&& 0x1f = 0x01 :=
  C10_sd_build_infallible_defaults.2 { speed := some 17, e_stop := true } rfl

/-- C2: tick() implements the specified transition table. From Idle{false}
the pin is driven low and the state becomes Idle{true}; from Idle{true} the
pin is driven high and, if a buffer is staged (write_buffer_len != 0), it is
copied into the active buffer, buffer_num_bits takes the staged length,
staging is cleared and the state becomes Transmitting{0,false}, otherwise
the state returns to Idle{false}; from Transmitting{offset,false} the pin is
driven low, the returned delay is ONE_MICROS if the bit at offset is set
else ZERO_MICROS and the state becomes Transmitting{offset,true}; from
Transmitting{offset,true} the pin is driven high, the same bit's delay is
returned, offset is incremented, and the state becomes Idle{false} when the
incremented offset equals buffer_num_bits, else
Transmitting{offset+1,false}. -/
theorem C2_tick_transition_table (s : DccInterruptHandler) :
    (s.state = .Idle false →
      s.tick = some (ZERO_MICROS,
        { s with pin := false, state := .Idle true })) ∧
    (s.state = .Idle true → s.write_buffer_len = 0 →
      s.tick = some (ZERO_MICROS,
        { s with pin := true, state := .Idle false })) ∧
    (s.state = .Idle true → s.write_buffer_len ≠ 0 →
      s.tick = some (ZERO_MICROS,
        { s with pin := true
                 buffer := s.write_buffer
                 buffer_num_bits := s.write_buffer_len
                 write_buffer_len := 0
                 state := .Transmitting 0 false })) ∧
    (∀ o b, s.state = .Transmitting o false → s.buffer[o]? = some b →
      o < s.buffer_num_bits →
      s.tick = some ((if b then ONE_MICROS else ZERO_MICROS),
        { s with pin := false, state := .Transmitting o true })) ∧
    (∀ o b, s.state = .Transmitting o true → s.buffer[o]? = some b →
      (o + 1 = s.buffer_num_bits →
        s.tick = some ((if b then ONE_MICROS else ZERO_MICROS),
          { s with pin := true, state := .Idle false })) ∧
      (o + 1 < s.buffer_num_bits →
        s.tick = some ((if b then ONE_MICROS else ZERO_MICROS),
          { s with pin := true, state := .Transmitting (o + 1) false }))) := by
  refine ⟨fun h => ?_, fun h hl => ?_, fun h hl => ?_,
    fun o b h hb ho => ?_, fun o b h hb => ⟨fun he => ?_, fun hl => ?_⟩⟩
  · simp [DccInterruptHandler.tick, h]
  · simp [DccInterruptHandler.tick, h, hl]
  · simp [DccInterruptHandler.tick, h, hl]
  · simp [DccInterruptHandler.tick, h, hb, ho]
  · simp [DccInterruptHandler.tick, h, hb, ← he]
  · simp [DccInterruptHandler.tick, h, hb, hl]

set_option maxRecDepth 4000 in
/-- C2 witness: the transition table applied to concrete engine states, one
per table row. -/
theorem C2_tick_transition_table_witness :
    ((DccInterruptHandler.new false).tick = some (ZERO_MICROS,
      { DccInterruptHandler.new false with
          pin := false
          state := .Idle true })) ∧
    (({ DccInterruptHandler.new false with state := .Idle true }).tick =
      some (ZERO_MICROS,
        { DccInterruptHandler.new false with
            pin := true
            state := .Idle false })) ∧
    (({ DccInterruptHandler.new false with
          state := .Idle true
          write_buffer_len := 16 }).tick =
      some (ZERO_MICROS,
        { DccInterruptHandler.new false with
            pin := true
            buffer := (DccInterruptHandler.new false).write_buffer
            buffer_num_bits := 16
            write_buffer_len := 0
            state := .Transmitting 0 false })) ∧
    (({ DccInterruptHandler.new false with
          buffer_num_bits := 16
          state := .Transmitting 0 false }).tick =
      some (ZERO_MICROS,
        { DccInterruptHandler.new false with
            buffer_num_bits := 16
            pin := false
            state := .Transmitting 0 true })) ∧
    (({ DccInterruptHandler.new false with
          buffer_num_bits := 16
          state := .Transmitting 15 true }).tick =
      some (ZERO_MICROS,
        { DccInterruptHandler.new false with
            buffer_num_bits := 16
            pin := true
            state := .Idle false })) ∧
    (({ DccInterruptHandler.new false with
          buffer_num_bits := 16
          state := .Transmitting 0 true }).tick =
      some (ZERO_MICROS,
        { DccInterruptHandler.new false with
            buffer_num_bits := 16
            pin := true
            state := .Transmitting 1 false })) := by
  refine ⟨(C2_tick_transition_table _).1 rfl,
    (C2_tick_transition_table _).2.1 rfl rfl,
    (C2_tick_transition_table _).2.2.1 rfl (by decide),
    (C2_tick_transition_table _).2.2.2.1 0 false rfl (by decide) (by decide),
    ((C2_tick_transition_table _).2.2.2.2 15 false rfl (by decide)).1
      (by decide),
    ((C2_tick_transition_table _).2.2.2.2 0 false rfl (by decide)).2
      (by decide)⟩

/-- The freshly constructed engine satisfies the structural invariant. -/
theorem EngineInv_new (pin : Bool) :
    EngineInv (DccInterruptHandler.new pin) := by
  refine ⟨by simp [DccInterruptHandler.new], by simp [DccInterruptHandler.new],
    by simp [DccInterruptHandler.new], by simp [DccInterruptHandler.new],
    fun o sh hst => ?_⟩
  simp [DccInterruptHandler.new] at hst

/-- Staging a packet preserves the structural invariant. -/
theorem EngineInv_write (s : DccInterruptHandler) (bits : List Bool)
    (h : EngineInv s) : EngineInv (Op.step s (.write bits)) := by
  obtain ⟨hw, hb, hwl, hnb, htr⟩ := h
  show EngineInv (match s.write bits with | .ok s2 => s2 | .error _ => s)
  unfold DccInterruptHandler.write
  by_cases hlen : bits.length > BUFFER_SIZE
  · rw [if_pos hlen]
    exact ⟨hw, hb, hwl, hnb, htr⟩
  · rw [if_neg hlen]
    refine ⟨?_, hb, ?_, hnb, fun o sh hst => htr o sh hst⟩
    · show (bits ++ s.write_buffer.drop bits.length).length = BUFFER_SIZE
      rw [List.length_append, List.length_drop, hw]
      omega
    · show bits.length ≤ BUFFER_SIZE
      omega

/-- A tick step preserves the structural invariant. -/
theorem EngineInv_tick (s : DccInterruptHandler) (h : EngineInv s) :
    EngineInv (Op.step s .tick) := by
  obtain ⟨hw, hb, hwl, hnb, htr⟩ := h
  cases hst : s.state with
  | Idle sec =>
      cases sec with
      | false =>
          simp [Op.step, DccInterruptHandler.tick, hst, EngineInv,
            hw, hb, hwl, hnb]
      | true =>
          by_cases hnz : s.write_buffer_len = 0
          · simp [Op.step, DccInterruptHandler.tick, hst, hnz, EngineInv,
              hw, hb, hwl, hnb]
          · simp [Op.step, DccInterruptHandler.tick, hst, hnz, EngineInv,
              hw, hb, hwl, hnb]
            omega
  | Transmitting o sec =>
      have hlt : o < s.buffer.length := by
        rw [hb]
        exact Nat.lt_of_lt_of_le (htr o sec hst) hnb
      by_cases hoff : (if sec then o + 1 else o) < s.buffer_num_bits
      · simp [Op.step, DccInterruptHandler.tick, hst, EngineInv, hw, hb, hwl,
          hnb, List.getElem?_eq_getElem hlt, hoff]
        exact fun o1 => ⟨fun h1 _ => h1 ▸ hoff, fun h1 _ => h1 ▸ hoff⟩
      · simp [Op.step, DccInterruptHandler.tick, hst, EngineInv, hw, hb, hwl,
          hnb, List.getElem?_eq_getElem hlt, hoff]

/-- Every engine state reachable by host operations from a fresh engine
satisfies the structural invariant. -/
theorem EngineInv_run (ops : List Op) : EngineInv (run ops) := by
  suffices hgen : ∀ s, EngineInv s → EngineInv (ops.foldl Op.step s) from
    hgen _ (EngineInv_new false)
  induction ops with
  | nil => exact fun s h => h
  | cons op rest ih =>
      intro s h
      refine ih _ ?_
      cases op with
      | write bits => exact EngineInv_write s bits h
      | tick => exact EngineInv_tick s h

/-- C9: in every engine state reachable from DccInterruptHandler::new by
any sequence of write and tick calls, whenever the state is
Transmitting{offset, _} the offset satisfies
offset < buffer_num_bits <= BUFFER_SIZE (192 bits), so the bit access
buffer.get(offset) inside tick() yields Some and tick() never hits the
out-of-range unwrap. -/
theorem C9_transmitting_offset_in_range (ops : List Op) (o : Nat) (sh : Bool)
    (h : (run ops).state = .Transmitting o sh) :
    o < (run ops).buffer_num_bits ∧
    (run ops).buffer_num_bits ≤ BUFFER_SIZE ∧
    ((run ops).buffer[o]?).isSome ∧
    ((run ops).tick).isSome := by
  obtain ⟨hw, hb, hwl, hnb, htr⟩ := EngineInv_run ops
  have ho : o < (run ops).buffer_num_bits := htr o sh h
  have hlt : o < (run ops).buffer.length := by
    rw [hb]
    exact Nat.lt_of_lt_of_le ho hnb
  refine ⟨ho, hnb, by simp [List.getElem?_eq_getElem hlt], ?_⟩
  simp only [DccInterruptHandler.tick, h, List.getElem?_eq_getElem hlt]
  split <;> (try split) <;> simp

set_option maxRecDepth 4000 in
/-- C9 witness: after staging sixteen bits and two ticks the engine is in
Transmitting{0,_} and the invariant holds there. -/
theorem C9_transmitting_offset_in_range_witness :
    (run [.write (List.replicate 16 true), .tick, .tick]).state =
      .Transmitting 0 false ∧
    (0 < (run [.write (List.replicate 16 true), .tick, .tick]).buffer_num_bits ∧
     (run [.write (List.replicate 16 true), .tick, .tick]).buffer_num_bits ≤
       BUFFER_SIZE ∧
     ((run [.write (List.replicate 16 true), .tick, .tick]).buffer[0]?).isSome ∧
     ((run [.write (List.replicate 16 true), .tick, .tick]).tick).isSome) :=
  ⟨by decide,
   C9_transmitting_offset_in_range
     [.write (List.replicate 16 true), .tick, .tick] 0 false (by decide)⟩

/-- Pointwise description of writeBits: inside the written range the bits
come from the list, outside it the buffer is untouched. -/
theorem writeBits_apply (bs : List Bool) : ∀ (buf : Nat → Bool) (pos i : Nat),
    writeBits buf pos bs i =
      if pos ≤ i ∧ i < pos + bs.length then bs.getD (i - pos) false
      else buf i := by
  induction bs with
  | nil =>
      intro buf pos i
      rw [writeBits, if_neg]
      simp only [List.length_nil]
      omega
  | cons b rest ih =>
      intro buf pos i
      rw [writeBits, ih]
      by_cases h1 : pos + 1 ≤ i ∧ i < pos + 1 + rest.length
      · rw [if_pos h1, if_pos (by simp only [List.length_cons]; omega)]
        have e : i - pos = (i - (pos + 1)) + 1 := by omega
        rw [e, List.getD_cons_succ]
      · rw [if_neg h1]
        by_cases h2 : i = pos
        · subst h2
          rw [setBit, if_pos rfl, if_pos (by simp only [List.length_cons]; omega)]
          simp
        · rw [setBit, if_neg h2, if_neg]
          simp only [List.length_cons]
          omega
theorem byteBits_length (d : Nat) : (byteBits d).length = 8 := rfl

theorem serialiseLoop_snd (data : List Nat) : ∀ (buf : Nat → Bool) (pos : Nat),
    (serialiseLoop data buf pos).2 = pos + 9 * data.length := by
  induction data with
  | nil => intro buf pos; simp [serialiseLoop]
  | cons d rest ih =>
      intro buf pos
      rw [serialiseLoop, ih]
      simp only [List.length_cons]
      omega

theorem serialiseLoop_apply_lt (data : List Nat) :
    ∀ (buf : Nat → Bool) (pos i : Nat), i < pos →
      (serialiseLoop data buf pos).1 i = buf i := by
  induction data with
  | nil => intro buf pos i _; rfl
  | cons d rest ih =>
      intro buf pos i hi
      rw [serialiseLoop, ih _ _ _ (by omega), writeBits_apply, if_neg (by omega),
        setBit, if_neg (by omega)]

theorem serialiseLoop_apply_ge (data : List Nat) :
    ∀ (buf : Nat → Bool) (pos i : Nat), pos + 9 * data.length ≤ i →
      (serialiseLoop data buf pos).1 i = buf i := by
  induction data with
  | nil => intro buf pos i _; rfl
  | cons d rest ih =>
      intro buf pos i hi
      simp only [List.length_cons] at hi
      rw [serialiseLoop, ih _ _ _ (by omega), writeBits_apply,
        if_neg (by rw [byteBits_length]; omega), setBit, if_neg (by omega)]

theorem serialiseLoop_start (data : List Nat) :
    ∀ (buf : Nat → Bool) (pos j : Nat), j < data.length →
      (serialiseLoop data buf pos).1 (pos + 9 * j) = false := by
  induction data with
  | nil => intro buf pos j hj; simp at hj
  | cons d rest ih =>
      intro buf pos j hj
      rw [serialiseLoop]
      cases j with
      | zero =>
          rw [Nat.mul_zero, Nat.add_zero,
            serialiseLoop_apply_lt _ _ _ _ (by omega), writeBits_apply,
            if_neg (by omega), setBit]
          simp
      | succ j2 =>
          simp only [List.length_cons, Nat.add_lt_add_iff_right] at hj
          have e : pos + 9 * (j2 + 1) = (pos + 1 + 8) + 9 * j2 := by ring
          rw [e, ih _ _ _ (by omega)]

theorem serialiseLoop_data (data : List Nat) :
    ∀ (buf : Nat → Bool) (pos j k : Nat), j < data.length → k < 8 →
      (serialiseLoop data buf pos).1 (pos + 9 * j + 1 + k) =
        (byteBits (data.getD j 0)).getD k false := by
  induction data with
  | nil => intro buf pos j k hj _; simp at hj
  | cons d rest ih =>
      intro buf pos j k hj hk
      rw [serialiseLoop]
      cases j with
      | zero =>
          rw [Nat.mul_zero, Nat.add_zero,
            serialiseLoop_apply_lt _ _ _ _ (by omega), writeBits_apply,
            if_pos (by rw [byteBits_length]; omega)]
          have e : pos + 1 + k - (pos + 1) = k := by omega
          rw [e, List.getD_cons_zero]
      | succ j2 =>
          simp only [List.length_cons, Nat.add_lt_add_iff_right] at hj
          have e : pos + 9 * (j2 + 1) + 1 + k = (pos + 1 + 8) + 9 * j2 + 1 + k := by
            ring
          rw [e, ih _ _ _ _ (by omega) hk, List.getD_cons_succ]

theorem preambleBits_getD (i : Nat) (h : i < 15) :
    (byteBits 0xff ++ byteBits 0xfe).getD i false = true := by
  interval_cases i <;> rfl

theorem byteBits_getD (d k : Nat) (h : k < 8) :
    (byteBits d).getD k false = d.testBit (7 - k) := by
  interval_cases k <;> rfl

/-- C5: for every byte sequence whose frame fits the destination buffer's
capacity (MAX_BITS = 43), the generic frame assembler writes fifteen
consecutive preamble one-bits, then for each data byte a 0 start bit
followed by the byte's eight bits MSB-first, then a single 1 stop bit after
the final byte, leaves all later bits untouched, and returns
15 + 9*len(data) + 1 total bits; when the required bits exceed the capacity
it fails with TooLong and writes nothing. -/
theorem C5_generic_frame_assembler (data : List Nat) (buf : Nat → Bool) :
    (15 + data.length * 9 + 1 ≤ MAX_BITS →
      (Dcc.serialise data buf).2 = .ok (15 + data.length * 9 + 1) ∧
      FrameLayout data buf (Dcc.serialise data buf).1) ∧
    (MAX_BITS < 15 + data.length * 9 + 1 →
      Dcc.serialise data buf = (buf, .error .TooLong)) := by
  constructor
  · intro hle
    have hnot : ¬ (15 + data.length * 9 + 1 > MAX_BITS) := by omega
    simp only [Dcc.serialise, hnot, if_false, ite_false, reduceIte]
    have hsnd : (serialiseLoop data
        (writeBits buf 0 (byteBits 0xff ++ byteBits 0xfe)) 15).2 =
        15 + 9 * data.length := serialiseLoop_snd data _ 15
    constructor
    · show Except.ok _ = Except.ok _
      rw [hsnd]
      congr 1
      omega
    · refine ⟨fun i hi => ?_, fun j hj => ⟨?_, fun k hk => ?_⟩, ?_, fun i hi => ?_⟩
      · show setBit _ _ true i = true
        rw [setBit, if_neg (by rw [hsnd]; omega),
          serialiseLoop_apply_lt _ _ _ _ (by omega), writeBits_apply,
          if_pos ⟨Nat.zero_le i, by simp [byteBits]; omega⟩]
        simpa using preambleBits_getD i hi
      · show setBit _ _ true (15 + 9 * j) = false
        rw [setBit, if_neg (by rw [hsnd]; omega), serialiseLoop_start _ _ _ _ hj]
      · show setBit _ _ true (16 + 9 * j + k) = _
        have e : 16 + 9 * j + k = 15 + 9 * j + 1 + k := by omega
        rw [setBit, if_neg (by rw [hsnd]; omega), e,
          serialiseLoop_data _ _ _ _ _ hj hk, byteBits_getD _ _ hk]
      · show setBit _ _ true (15 + 9 * data.length) = true
        rw [setBit, if_pos (by rw [hsnd])]
      · show setBit _ _ true i = buf i
        rw [setBit, if_neg (by rw [hsnd]; omega),
          serialiseLoop_apply_ge _ _ _ _ (by omega), writeBits_apply,
          if_neg (by simp [byteBits]; omega)]
  · intro hgt
    simp only [Dcc.serialise]
    rw [if_pos (by omega)]
/-- C5 witness: the assembler applied to the crate's AddressOnly test
payload (three bytes, exactly 43 bits) and to an over-long four-byte
payload. -/
theorem C5_generic_frame_assembler_witness :
    (15 + ([0x78, 0x3b, 0x43] : List Nat).length * 9 + 1 ≤ MAX_BITS ∧
     ((Dcc.serialise [0x78, 0x3b, 0x43] (fun _ => false)).2 =
        .ok (15 + ([0x78, 0x3b, 0x43] : List Nat).length * 9 + 1) ∧
      FrameLayout [0x78, 0x3b, 0x43] (fun _ => false)
        (Dcc.serialise [0x78, 0x3b, 0x43] (fun _ => false)).1)) ∧
    (MAX_BITS < 15 + ([0, 0, 0, 0] : List Nat).length * 9 + 1 ∧
     Dcc.serialise [0, 0, 0, 0] (fun _ => false) =
       ((fun _ => false), .error .TooLong)) :=
  ⟨⟨by decide,
    (C5_generic_frame_assembler [0x78, 0x3b, 0x43] (fun _ => false)).1
      (by decide)⟩,
   ⟨by decide,
    (C5_generic_frame_assembler [0, 0, 0, 0] (fun _ => false)).2
      (by decide)⟩⟩

end Dcc
